import Mathlib

/-!
Verification of the decision-engine core of the anti-debug framework.

The definitions below are a shallow embedding of the Rust sources:
  * `src/engine/policy.rs`       — evidence pipeline and verdict logic
  * `src/engine/environment.rs`  — environmental score damping
  * `src/engine/signal_compat.rs`— tracer cache / compat-mode globals
  * `src/detectors/hardware_bp.rs` (signal-exception arm)
  * `src/detectors/jitter.rs`    — JitterStats
  * `src/detectors/int3.rs`      — INT3 pattern classification

Embedding conventions:
  * Rust `u32` is modelled as `Nat`; `saturating_add` clamps at `U32_MAX`
    and the unchecked `+=` on per-source totals wraps modulo `2^32`.
  * Rust `f64` confidences and damping factors are modelled as exact
    rationals; the cast `as u32` of a non-negative value is `Int.toNat`
    of the floor, clamped at `U32_MAX`, which is the Rust saturating cast.
  * `HashMap<DetectionSource, u32>` is modelled as a total function with
    default 0, which is observationally the map with `unwrap_or(&0)`.
  * Logging (`eprintln!`) has no observable effect and is dropped.
-/

set_option maxHeartbeats 1000000

/-- Verdict enumeration from `src/engine/policy.rs`. -/
inductive Verdict where
  | Clean
  | Suspicious
  | Instrumented
  | Deceptive
deriving DecidableEq

/-- Detection source taxonomy from `src/engine/policy.rs`. -/
inductive DetectionSource where
  | Timing
  | Int3
  | TrapFlag
  | Ptrace
  | HardwareBreakpoint
  | Jitter
  | RecordReplay
  | EbpfComparison
  | Correlation
deriving DecidableEq

/-- Evidence record with confidence level (`src/engine/policy.rs`).
The `weight` field stores the value the Rust code pushes, namely the
already-adjusted weight. -/
structure Evidence where
  source : DetectionSource
  weight : Nat
  confidence : ℚ
  details : String
deriving DecidableEq

/-- Contradiction record (`src/engine/policy.rs`). -/
structure Contradiction where
  source_a : DetectionSource
  source_b : DetectionSource
  description : String
deriving DecidableEq

/-- Engine state (`src/engine/policy.rs`, struct DecisionEngine). -/
structure DecisionEngine where
  score : Nat
  history : List Evidence
  contradictions : List Contradiction
  source_weights : DetectionSource → Nat

/-- Largest value of a Rust `u32`. -/
def U32_MAX : Nat := 4294967295

/-- Rust `u32::saturating_add`. -/
def satAdd (a b : Nat) : Nat := min (a + b) U32_MAX

/-- Rust release-mode `u32` addition (wraps modulo `2 ^ 32`); used for the
unchecked `+=` on the per-source totals. -/
def wrapAdd (a b : Nat) : Nat := (a + b) % (U32_MAX + 1)

/-- The Rust expression `(weight as f64 * confidence) as u32`: floor of the
product, clamped into the `u32` range (the saturating float-to-int cast). -/
def effectiveWeight (w : Nat) (c : ℚ) : Nat :=
  min (Int.toNat ⌊(w : ℚ) * c⌋) U32_MAX

/-- Fresh engine (`DecisionEngine::new`). -/
def DecisionEngine.new : DecisionEngine :=
  { score := 0, history := [], contradictions := [], source_weights := fun _ => 0 }

/-- `DecisionEngine::report_with_confidence` from `src/engine/policy.rs`. -/
def DecisionEngine.report_with_confidence (e : DecisionEngine) (source : DetectionSource)
    (weight : Nat) (confidence : ℚ) (details : String) : DecisionEngine :=
  let adjusted_weight := effectiveWeight weight confidence
  { score := satAdd e.score adjusted_weight
    history := e.history ++
      [{ source := source, weight := adjusted_weight, confidence := confidence,
         details := details }]
    contradictions := e.contradictions
    source_weights := fun t =>
      if t = source then wrapAdd (e.source_weights t) adjusted_weight
      else e.source_weights t }

/-- `DecisionEngine::report` — `report_with_confidence` at confidence 1.0. -/
def DecisionEngine.report (e : DecisionEngine) (source : DetectionSource)
    (weight : Nat) (details : String) : DecisionEngine :=
  e.report_with_confidence source weight 1 details

/-- `DecisionEngine::record_contradiction` from `src/engine/policy.rs`. -/
def DecisionEngine.record_contradiction (e : DecisionEngine) (source_a source_b : DetectionSource)
    (description : String) : DecisionEngine :=
  { e with
    contradictions := e.contradictions ++
      [{ source_a := source_a, source_b := source_b, description := description }]
    score := satAdd e.score 30 }

/-- `DecisionEngine::has_detection` — any evidence from `source` with
positive weight. -/
def DecisionEngine.has_detection (e : DecisionEngine) (source : DetectionSource) : Bool :=
  e.history.any fun ev => decide (ev.source = source ∧ 0 < ev.weight)

/-- `DecisionEngine::get_source_weight` — map lookup with default 0. -/
def DecisionEngine.get_source_weight (e : DecisionEngine) (source : DetectionSource) : Nat :=
  e.source_weights source

/-- Description string recorded by the built-in contradiction rule. -/
def timingContradictionMsg : String :=
  "Heavy timing anomaly but no tracer detected - possible ptrace hiding"

/-- `DecisionEngine::analyze_contradictions` from `src/engine/policy.rs`. -/
def DecisionEngine.analyze_contradictions (e : DecisionEngine) : DecisionEngine :=
  let has_timing := e.has_detection DetectionSource.Timing ||
                    e.has_detection DetectionSource.Jitter
  let has_hw_bp := e.has_detection DetectionSource.HardwareBreakpoint
  let has_ptrace := e.has_detection DetectionSource.Ptrace
  if has_timing && !has_hw_bp && !has_ptrace then
    let timing_weight := wrapAdd (e.get_source_weight DetectionSource.Timing)
                                 (e.get_source_weight DetectionSource.Jitter)
    if 40 < timing_weight then
      e.record_contradiction DetectionSource.Timing DetectionSource.Ptrace
        timingContradictionMsg
    else e
  else e

/-- `DecisionEngine::decide` from `src/engine/policy.rs`. -/
def DecisionEngine.decide (e : DecisionEngine) : Verdict :=
  if !e.contradictions.isEmpty then Verdict.Deceptive
  else if 90 ≤ e.score then Verdict.Deceptive
  else if 50 ≤ e.score then Verdict.Instrumented
  else if 20 ≤ e.score then Verdict.Suspicious
  else Verdict.Clean

/-- `DecisionEngine::get_score`. -/
def DecisionEngine.get_score (e : DecisionEngine) : Nat := e.score

/-- `DecisionEngine::apply_environmental_adjustment` from `src/engine/policy.rs`:
if `0 < factor < 1`, the score becomes `(score as f64 * factor) as u32`. -/
def DecisionEngine.apply_environmental_adjustment (e : DecisionEngine) (factor : ℚ) :
    DecisionEngine :=
  if factor < 1 ∧ 0 < factor then
    { e with score := min (Int.toNat ⌊(e.score : ℚ) * factor⌋) U32_MAX }
  else e

/-- Helper engine with a bare score, an empty log and no contradictions. -/
def engineWithScore (s : Nat) : DecisionEngine :=
  { score := s, history := [], contradictions := [], source_weights := fun _ => 0 }

/-- C1: `decide()` returns Deceptive whenever a contradiction is recorded,
regardless of score; otherwise Deceptive for score ≥ 90, Instrumented for
50–89, Suspicious for 20–49, Clean for ≤ 19; in particular, with no
contradictions, scores 19, 20, 49, 50, 89 and 90 give Clean, Suspicious,
Suspicious, Instrumented, Instrumented, Deceptive. -/
theorem claim_C1_decide_thresholds :
    (∀ e : DecisionEngine,
      e.decide =
        if e.contradictions ≠ [] then Verdict.Deceptive
        else if 90 ≤ e.score then Verdict.Deceptive
        else if 50 ≤ e.score then Verdict.Instrumented
        else if 20 ≤ e.score then Verdict.Suspicious
        else Verdict.Clean)
    ∧ (engineWithScore 19).decide = Verdict.Clean
    ∧ (engineWithScore 20).decide = Verdict.Suspicious
    ∧ (engineWithScore 49).decide = Verdict.Suspicious
    ∧ (engineWithScore 50).decide = Verdict.Instrumented
    ∧ (engineWithScore 89).decide = Verdict.Instrumented
    ∧ (engineWithScore 90).decide = Verdict.Deceptive := by
  refine ⟨fun e => ?_, by decide, by decide, by decide, by decide, by decide, by decide⟩
  unfold DecisionEngine.decide
  rcases e with ⟨s, h, c, w⟩
  cases c <;> simp [List.isEmpty]

/-- C10: every call to `report` or `report_with_confidence` — including
calls with weight 0 or confidence 0 — appends exactly one Evidence record,
and the record stores the effective weight `floor(weight * confidence)`
(clamped into u32), not the raw detector weight; the per-source totals are
likewise incremented by the effective weight only. -/
theorem claim_C10_report_appends_effective :
    ∀ (e : DecisionEngine) (s : DetectionSource) (w : Nat) (c : ℚ) (d : String),
      (e.report_with_confidence s w c d).history
        = e.history ++
          [{ source := s, weight := effectiveWeight w c, confidence := c, details := d }]
      ∧ (e.report_with_confidence s w c d).history.length = e.history.length + 1
      ∧ (e.report s w d).history
        = e.history ++
          [{ source := s, weight := effectiveWeight w 1, confidence := 1, details := d }]
      ∧ (∀ t, (e.report_with_confidence s w c d).source_weights t
          = if t = s then wrapAdd (e.source_weights t) (effectiveWeight w c)
            else e.source_weights t) := by
  intro e s w c d
  refine ⟨rfl, ?_, rfl, fun t => rfl⟩
  simp [DecisionEngine.report_with_confidence]

/-- C5: with a factor in the open interval (0,1), the environmental
adjustment replaces the score S by the truncation of S * factor, strictly
decreasing a positive score and preserving a zero score; with factor ≤ 0
or ≥ 1 the engine is unchanged.  The score of a Rust engine state is a
u32, so states satisfy `score ≤ U32_MAX`. -/
theorem claim_C5_environmental_adjustment :
    ∀ (e : DecisionEngine) (f : ℚ), e.score ≤ U32_MAX →
      (0 < f → f < 1 →
        (e.apply_environmental_adjustment f).score = Int.toNat ⌊(e.score : ℚ) * f⌋
        ∧ (0 < e.score → (e.apply_environmental_adjustment f).score < e.score)
        ∧ (e.score = 0 → (e.apply_environmental_adjustment f).score = 0))
      ∧ ((f ≤ 0 ∨ 1 ≤ f) → e.apply_environmental_adjustment f = e) := by
  intro e f hscore
  constructor
  · intro hf0 hf1
    have hcond : f < 1 ∧ 0 < f := ⟨hf1, hf0⟩
    have happly : (e.apply_environmental_adjustment f).score
        = min (Int.toNat ⌊(e.score : ℚ) * f⌋) U32_MAX := by
      unfold DecisionEngine.apply_environmental_adjustment
      rw [if_pos hcond]
    have hfl : ⌊(e.score : ℚ) * f⌋ ≤ (e.score : ℤ) := by
      have hmul : (e.score : ℚ) * f ≤ (e.score : ℚ) := by
        have h0 : (0 : ℚ) ≤ (e.score : ℚ) := by positivity
        nlinarith
      calc ⌊(e.score : ℚ) * f⌋ ≤ ⌊(e.score : ℚ)⌋ := Int.floor_le_floor hmul
        _ = (e.score : ℤ) := Int.floor_natCast _
    have hle : Int.toNat ⌊(e.score : ℚ) * f⌋ ≤ e.score := by omega
    have hmin : min (Int.toNat ⌊(e.score : ℚ) * f⌋) U32_MAX
        = Int.toNat ⌊(e.score : ℚ) * f⌋ := by omega
    refine ⟨by rw [happly, hmin], ?_, ?_⟩
    · intro hpos
      have hstrict : ⌊(e.score : ℚ) * f⌋ < (e.score : ℤ) := by
        have h0 : (0 : ℚ) < (e.score : ℚ) := by exact_mod_cast hpos
        have hlt : (e.score : ℚ) * f < ((e.score : ℤ) : ℚ) := by push_cast; nlinarith
        exact Int.floor_lt.mpr hlt
      rw [happly, hmin]
      omega
    · intro hzero
      rw [happly, hmin, hzero]
      simp
  · intro hout
    unfold DecisionEngine.apply_environmental_adjustment
    rw [if_neg]
    rintro ⟨h1, h2⟩
    rcases hout with h | h
    · linarith
    · linarith

/-- Witness for C5 at score 10 with factors 1/2 (damping) and 2 (no-op). -/
theorem claim_C5_witness :
    ((engineWithScore 10).apply_environmental_adjustment (1/2)).score = 5
    ∧ ((engineWithScore 10).apply_environmental_adjustment (1/2)).score < 10
    ∧ (engineWithScore 10).apply_environmental_adjustment 2 = engineWithScore 10 := by
  have h := claim_C5_environmental_adjustment (engineWithScore 10) (1/2) (by decide)
  have h1 := (h.1 (by norm_num) (by norm_num)).1
  have h2 := (h.1 (by norm_num) (by norm_num)).2.1 (by decide)
  have h3 := (claim_C5_environmental_adjustment (engineWithScore 10) 2 (by decide)).2
    (Or.inr (by norm_num))
  refine ⟨?_, h2, h3⟩
  rw [h1]
  show Int.toNat ⌊((10 : ℕ) : ℚ) * (1/2)⌋ = 5
  norm_num
  decide

/-- A call against the engine: either `report_with_confidence` (with
`report s w d` being the confidence-1 case) or `record_contradiction`. -/
inductive EngineOp where
  | rep (source : DetectionSource) (weight : Nat) (confidence : ℚ) (details : String)
  | contra (source_a source_b : DetectionSource) (description : String)
deriving DecidableEq

/-- Effect of one engine call on the engine state. -/
def EngineOp.apply (e : DecisionEngine) : EngineOp → DecisionEngine
  | .rep s w c d => e.report_with_confidence s w c d
  | .contra a b d => e.record_contradiction a b d

/-- Run a sequence of engine calls left to right. -/
def runOps (ops : List EngineOp) (e : DecisionEngine) : DecisionEngine :=
  ops.foldl EngineOp.apply e

/-- Whether the call is a `record_contradiction`. -/
def EngineOp.isContra : EngineOp → Bool
  | .rep _ _ _ _ => false
  | .contra _ _ _ => true

/-- Amount the call saturating-adds to the score in the code. -/
def EngineOp.contrib : EngineOp → Nat
  | .rep _ w c _ => effectiveWeight w c
  | .contra _ _ _ => 30

/-- Effective contribution of a report as the spec words it:
`floor(weight * confidence)`; 0 for a contradiction. -/
def EngineOp.rawEff : EngineOp → Nat
  | .rep _ w c _ => Int.toNat ⌊(w : ℚ) * c⌋
  | .contra _ _ _ => 0

/-- Spec-level per-op score increment: `floor(weight * confidence)` for a
report and 30 for a contradiction. -/
def EngineOp.rawContrib : EngineOp → Nat
  | .rep _ w c _ => Int.toNat ⌊(w : ℚ) * c⌋
  | .contra _ _ _ => 30

/-- Amount the call adds to the per-source total of `s` in the code. -/
def EngineOp.srcContrib (s : DetectionSource) : EngineOp → Nat
  | .rep t w c _ => if t = s then effectiveWeight w c else 0
  | .contra _ _ _ => 0

/-- Spec-level contribution of the call to the per-source total of `s`. -/
def EngineOp.rawSrcEff (s : DetectionSource) : EngineOp → Nat
  | .rep t w c _ => if t = s then Int.toNat ⌊(w : ℚ) * c⌋ else 0
  | .contra _ _ _ => 0

/-- Evidence record appended by the call, if any. -/
def EngineOp.toEvidence : EngineOp → Option Evidence
  | .rep s w c d => some { source := s, weight := effectiveWeight w c, confidence := c,
                           details := d }
  | .contra _ _ _ => none

/-- Contradiction record appended by the call, if any. -/
def EngineOp.toContra : EngineOp → Option Contradiction
  | .rep _ _ _ _ => none
  | .contra a b d => some { source_a := a, source_b := b, description := d }

/-- Number of `record_contradiction` calls in the sequence. -/
def countContra (ops : List EngineOp) : Nat := ops.countP EngineOp.isContra

theorem runOps_cons (op : EngineOp) (ops : List EngineOp) (e : DecisionEngine) :
    runOps (op :: ops) e = runOps ops (op.apply e) := rfl

theorem apply_score (e : DecisionEngine) (op : EngineOp) :
    (op.apply e).score = satAdd e.score op.contrib := by
  cases op <;> rfl

theorem runOps_score (ops : List EngineOp) :
    ∀ e : DecisionEngine, e.score ≤ U32_MAX →
      (runOps ops e).score = min (e.score + (ops.map EngineOp.contrib).sum) U32_MAX := by
  induction ops with
  | nil =>
    intro e h
    simp only [runOps, List.foldl_nil, List.map_nil, List.sum_nil, Nat.add_zero]
    omega
  | cons op ops ih =>
    intro e h
    have hb : (op.apply e).score ≤ U32_MAX := by
      rw [apply_score]; exact Nat.min_le_right _ _
    rw [runOps_cons, ih _ hb, apply_score]
    simp only [satAdd, List.map_cons, List.sum_cons]
    omega

theorem runOps_contradictions (ops : List EngineOp) :
    ∀ e : DecisionEngine,
      (runOps ops e).contradictions = e.contradictions ++ ops.filterMap EngineOp.toContra := by
  induction ops with
  | nil => intro e; simp [runOps]
  | cons op ops ih =>
    intro e
    rw [runOps_cons, ih]
    cases op <;>
      simp [EngineOp.apply, EngineOp.toContra, DecisionEngine.report_with_confidence,
        DecisionEngine.record_contradiction]

theorem runOps_history (ops : List EngineOp) :
    ∀ e : DecisionEngine,
      (runOps ops e).history = e.history ++ ops.filterMap EngineOp.toEvidence := by
  induction ops with
  | nil => intro e; simp [runOps]
  | cons op ops ih =>
    intro e
    rw [runOps_cons, ih]
    cases op <;>
      simp [EngineOp.apply, EngineOp.toEvidence, DecisionEngine.report_with_confidence,
        DecisionEngine.record_contradiction]

theorem runOps_source_weights (ops : List EngineOp) :
    ∀ (e : DecisionEngine) (s : DetectionSource), e.source_weights s ≤ U32_MAX →
      (runOps ops e).source_weights s
        = (e.source_weights s + (ops.map (EngineOp.srcContrib s)).sum) % (U32_MAX + 1) := by
  induction ops with
  | nil =>
    intro e s h
    simp only [runOps, List.foldl_nil, List.map_nil, List.sum_nil, Nat.add_zero]
    rw [Nat.mod_eq_of_lt (by omega)]
  | cons op ops ih =>
    intro e s h
    have hb : (op.apply e).source_weights s ≤ U32_MAX := by
      cases op with
      | rep t w c d =>
        simp only [EngineOp.apply, DecisionEngine.report_with_confidence]
        by_cases hst : s = t
        · rw [if_pos hst]
          have hm : (e.source_weights s + effectiveWeight w c) % (U32_MAX + 1) < U32_MAX + 1 :=
            Nat.mod_lt _ (by omega)
          unfold wrapAdd
          omega
        · rw [if_neg hst]; exact h
      | contra a b d => exact h
    rw [runOps_cons, ih _ _ hb]
    cases op with
    | rep t w c d =>
      simp only [EngineOp.apply, DecisionEngine.report_with_confidence, List.map_cons,
        List.sum_cons, EngineOp.srcContrib]
      by_cases hst : s = t
      · subst hst
        simp only [if_pos rfl, eq_self_iff_true, ite_true, wrapAdd, U32_MAX]
        omega
      · rw [if_neg hst, if_neg (fun hts => hst hts.symm)]
        simp
    | contra a b d =>
      simp only [EngineOp.apply, DecisionEngine.record_contradiction, List.map_cons,
        List.sum_cons, EngineOp.srcContrib]
      simp

theorem rawSrcEff_le_rawContrib (s : DetectionSource) (op : EngineOp) :
    op.rawSrcEff s ≤ op.rawContrib := by
  cases op with
  | rep t w c d =>
    simp only [EngineOp.rawSrcEff, EngineOp.rawContrib]
    split <;> omega
  | contra a b d => simp [EngineOp.rawSrcEff, EngineOp.rawContrib]

theorem rawEff_le_rawContrib (op : EngineOp) : op.rawEff ≤ op.rawContrib := by
  cases op <;> simp [EngineOp.rawEff, EngineOp.rawContrib]

theorem contrib_eq_rawContrib (op : EngineOp) (h : op.rawContrib ≤ U32_MAX) :
    op.contrib = op.rawContrib := by
  cases op with
  | rep t w c d =>
    simp only [EngineOp.contrib, EngineOp.rawContrib, effectiveWeight] at *
    omega
  | contra a b d => rfl

theorem srcContrib_eq_rawSrcEff (s : DetectionSource) (op : EngineOp)
    (h : op.rawContrib ≤ U32_MAX) : op.srcContrib s = op.rawSrcEff s := by
  cases op with
  | rep t w c d =>
    simp only [EngineOp.srcContrib, EngineOp.rawSrcEff, EngineOp.rawContrib,
      effectiveWeight] at *
    split <;> omega
  | contra a b d => rfl

theorem sum_rawContrib_split (ops : List EngineOp) :
    (ops.map EngineOp.rawContrib).sum = (ops.map EngineOp.rawEff).sum + 30 * countContra ops := by
  induction ops with
  | nil => simp [countContra]
  | cons op ops ih =>
    simp only [List.map_cons, List.sum_cons, countContra, List.countP_cons] at *
    cases op <;> simp [EngineOp.rawContrib, EngineOp.rawEff, EngineOp.isContra] <;> omega

theorem rawContrib_mem_le (ops : List EngineOp) (op : EngineOp) (hop : op ∈ ops) :
    op.rawContrib ≤ (ops.map EngineOp.rawContrib).sum := by
  induction ops with
  | nil => cases hop
  | cons op2 ops ih =>
    rcases List.mem_cons.mp hop with h | h
    · subst h; simp only [List.map_cons, List.sum_cons]; omega
    · have := ih h
      simp only [List.map_cons, List.sum_cons]
      omega

/-- C2: running any sequence of report and record_contradiction calls on a
fresh engine (no damping, and no u32 saturation) leaves the score equal to
the sum of `floor(weight * confidence)` over all reported evidence plus 30
per recorded contradiction, and leaves each per-source total equal to the
sum of `floor(weight * confidence)` over exactly the calls reporting that
source. -/
theorem claim_C2_score_invariant (ops : List EngineOp)
    (hsat : (ops.map EngineOp.rawEff).sum + 30 * countContra ops ≤ U32_MAX) :
    (runOps ops DecisionEngine.new).score
      = (ops.map EngineOp.rawEff).sum + 30 * countContra ops
    ∧ ∀ s, (runOps ops DecisionEngine.new).source_weights s
      = (ops.map (EngineOp.rawSrcEff s)).sum := by
  have hraw : (ops.map EngineOp.rawContrib).sum ≤ U32_MAX := by
    rw [sum_rawContrib_split]; exact hsat
  have hpt : ∀ op ∈ ops, op.rawContrib ≤ U32_MAX := fun op hop =>
    le_trans (rawContrib_mem_le ops op hop) hraw
  have hmapc : ops.map EngineOp.contrib = ops.map EngineOp.rawContrib :=
    List.map_congr_left fun op hop => contrib_eq_rawContrib op (hpt op hop)
  constructor
  · rw [runOps_score ops DecisionEngine.new (by simp [DecisionEngine.new])]
    rw [hmapc, sum_rawContrib_split]
    show min ((DecisionEngine.new).score + _) U32_MAX = _
    simp only [DecisionEngine.new]
    omega
  · intro s
    have hmaps : ops.map (EngineOp.srcContrib s) = ops.map (EngineOp.rawSrcEff s) :=
      List.map_congr_left fun op hop => srcContrib_eq_rawSrcEff s op (hpt op hop)
    have hsle : (ops.map (EngineOp.rawSrcEff s)).sum ≤ (ops.map EngineOp.rawContrib).sum :=
      List.sum_le_sum fun op hop => rawSrcEff_le_rawContrib s op
    rw [runOps_source_weights ops DecisionEngine.new s (by simp [DecisionEngine.new])]
    rw [hmaps]
    show ((DecisionEngine.new).source_weights s + _) % (U32_MAX + 1) = _
    simp only [DecisionEngine.new]
    rw [Nat.zero_add, Nat.mod_eq_of_lt (by omega)]

/-- Witness for C2: one report of weight 10 at confidence 1/2 followed by
one contradiction gives score 35 and a Timing total of 5. -/
theorem claim_C2_witness :
    (runOps [EngineOp.rep DetectionSource.Timing 10 (1/2) "t",
             EngineOp.contra DetectionSource.Timing DetectionSource.Ptrace "x"]
       DecisionEngine.new).score
      = ([EngineOp.rep DetectionSource.Timing 10 (1/2) "t",
          EngineOp.contra DetectionSource.Timing DetectionSource.Ptrace "x"].map
            EngineOp.rawEff).sum
        + 30 * countContra [EngineOp.rep DetectionSource.Timing 10 (1/2) "t",
            EngineOp.contra DetectionSource.Timing DetectionSource.Ptrace "x"]
    ∧ ∀ s, (runOps [EngineOp.rep DetectionSource.Timing 10 (1/2) "t",
             EngineOp.contra DetectionSource.Timing DetectionSource.Ptrace "x"]
       DecisionEngine.new).source_weights s
      = ([EngineOp.rep DetectionSource.Timing 10 (1/2) "t",
          EngineOp.contra DetectionSource.Timing DetectionSource.Ptrace "x"].map
            (EngineOp.rawSrcEff s)).sum :=
  claim_C2_score_invariant _ (by
    simp only [List.map_cons, List.map_nil, List.sum_cons, List.sum_nil, EngineOp.rawEff,
      countContra, List.countP_cons, List.countP_nil, EngineOp.isContra]
    norm_num [U32_MAX]
    omega)

theorem toContra_eq_none (op : EngineOp) (h : op.isContra = false) :
    op.toContra = none := by
  cases op with
  | rep s w c d => rfl
  | contra a b d => simp [EngineOp.isContra] at h

theorem filterMap_toContra_nil (ops : List EngineOp)
    (h : ∀ op ∈ ops, op.isContra = false) : ops.filterMap EngineOp.toContra = [] := by
  induction ops with
  | nil => rfl
  | cons op ops ih =>
    rw [List.filterMap_cons, toContra_eq_none op (h op (List.mem_cons_self op ops))]
    exact ih fun o ho => h o (List.mem_cons_of_mem op ho)

theorem decide_congr (e1 e2 : DecisionEngine) (hs : e1.score = e2.score)
    (hc : e1.contradictions = e2.contradictions) : e1.decide = e2.decide := by
  unfold DecisionEngine.decide
  rw [hs, hc]

/-- C7: permuting a sequence of report calls run against a fresh engine
preserves the final score, the (empty) contradiction log, and the verdict;
only the evidence-log order may change. -/
theorem claim_C7_order_independence (l1 l2 : List EngineOp) (hperm : l1.Perm l2)
    (hrep : ∀ op ∈ l1, op.isContra = false) :
    (runOps l1 DecisionEngine.new).score = (runOps l2 DecisionEngine.new).score
    ∧ (runOps l1 DecisionEngine.new).contradictions
        = (runOps l2 DecisionEngine.new).contradictions
    ∧ (runOps l1 DecisionEngine.new).decide = (runOps l2 DecisionEngine.new).decide := by
  have hsum : (l1.map EngineOp.contrib).sum = (l2.map EngineOp.contrib).sum :=
    (hperm.map EngineOp.contrib).sum_eq
  have hz : (DecisionEngine.new).score ≤ U32_MAX := by simp [DecisionEngine.new]
  have hscore : (runOps l1 DecisionEngine.new).score = (runOps l2 DecisionEngine.new).score := by
    rw [runOps_score l1 DecisionEngine.new hz, runOps_score l2 DecisionEngine.new hz, hsum]
  have hcontra : (runOps l1 DecisionEngine.new).contradictions
      = (runOps l2 DecisionEngine.new).contradictions := by
    rw [runOps_contradictions l1 DecisionEngine.new, runOps_contradictions l2 DecisionEngine.new,
      filterMap_toContra_nil l1 hrep,
      filterMap_toContra_nil l2 fun op hop => hrep op (hperm.mem_iff.mpr hop)]
  exact ⟨hscore, hcontra, decide_congr _ _ hscore hcontra⟩

/-- Witness for C7: swapping two reports preserves score, contradictions
and verdict. -/
theorem claim_C7_witness :
    (runOps [EngineOp.rep DetectionSource.Timing 10 1 "a",
             EngineOp.rep DetectionSource.Jitter 20 1 "b"] DecisionEngine.new).score
      = (runOps [EngineOp.rep DetectionSource.Jitter 20 1 "b",
             EngineOp.rep DetectionSource.Timing 10 1 "a"] DecisionEngine.new).score
    ∧ (runOps [EngineOp.rep DetectionSource.Timing 10 1 "a",
             EngineOp.rep DetectionSource.Jitter 20 1 "b"] DecisionEngine.new).contradictions
      = (runOps [EngineOp.rep DetectionSource.Jitter 20 1 "b",
             EngineOp.rep DetectionSource.Timing 10 1 "a"] DecisionEngine.new).contradictions
    ∧ (runOps [EngineOp.rep DetectionSource.Timing 10 1 "a",
             EngineOp.rep DetectionSource.Jitter 20 1 "b"] DecisionEngine.new).decide
      = (runOps [EngineOp.rep DetectionSource.Jitter 20 1 "b",
             EngineOp.rep DetectionSource.Timing 10 1 "a"] DecisionEngine.new).decide :=
  claim_C7_order_independence _ _ (List.Perm.swap _ _ _) (by
    intro op hop
    rcases List.mem_cons.mp hop with h | h
    · subst h; rfl
    · rcases List.mem_cons.mp h with h2 | h2
      · subst h2; rfl
      · cases h2)

theorem has_detection_iff (e : DecisionEngine) (s : DetectionSource) :
    e.has_detection s = true ↔ ∃ ev ∈ e.history, ev.source = s ∧ 0 < ev.weight := by
  simp [DecisionEngine.has_detection, List.any_eq_true]

theorem srcContrib_sum_eq_hist (ops : List EngineOp) (s : DetectionSource) :
    (ops.map (EngineOp.srcContrib s)).sum
      = ((ops.filterMap EngineOp.toEvidence).map
          (fun ev => if ev.source = s then ev.weight else 0)).sum := by
  induction ops with
  | nil => rfl
  | cons op ops ih =>
    cases op with
    | rep t w c d =>
      simp only [List.map_cons, List.sum_cons, List.filterMap_cons, EngineOp.srcContrib,
        EngineOp.toEvidence]
      rw [ih]
    | contra a b d =>
      simpa [EngineOp.srcContrib, EngineOp.toEvidence] using ih

theorem exists_pos_of_weight_sum_pos {l : List Evidence} {s : DetectionSource}
    (h : 0 < (l.map (fun ev => if ev.source = s then ev.weight else 0)).sum) :
    ∃ ev ∈ l, ev.source = s ∧ 0 < ev.weight := by
  induction l with
  | nil => simp at h
  | cons ev l ih =>
    simp only [List.map_cons, List.sum_cons] at h
    by_cases hs : ev.source = s
    · rw [if_pos hs] at h
      by_cases hw : 0 < ev.weight
      · exact ⟨ev, List.mem_cons_self ev l, hs, hw⟩
      · have hz : ev.weight = 0 := by omega
        rw [hz, Nat.zero_add] at h
        obtain ⟨ev2, hm, hp⟩ := ih h
        exact ⟨ev2, List.mem_cons_of_mem ev hm, hp⟩
    · rw [if_neg hs, Nat.zero_add] at h
      obtain ⟨ev2, hm, hp⟩ := ih h
      exact ⟨ev2, List.mem_cons_of_mem ev hm, hp⟩

theorem weight_sum_zero_of_no_pos {l : List Evidence} {s : DetectionSource}
    (h : ¬ ∃ ev ∈ l, ev.source = s ∧ 0 < ev.weight) :
    (l.map (fun ev => if ev.source = s then ev.weight else 0)).sum = 0 := by
  induction l with
  | nil => rfl
  | cons ev l ih =>
    simp only [List.map_cons, List.sum_cons]
    have h1 : ¬ ∃ ev2 ∈ l, ev2.source = s ∧ 0 < ev2.weight := by
      intro ⟨ev2, hm, hp⟩
      exact h ⟨ev2, List.mem_cons_of_mem ev hm, hp⟩
    rw [ih h1]
    by_cases hs : ev.source = s
    · have hw : ¬ 0 < ev.weight := fun hw => h ⟨ev, List.mem_cons_self ev l, hs, hw⟩
      rw [if_pos hs]
      omega
    · rw [if_neg hs]

theorem sum_map_add_distrib {α : Type} (l : List α) (f g : α → Nat) :
    (l.map fun a => f a + g a).sum = (l.map f).sum + (l.map g).sum := by
  induction l with
  | nil => rfl
  | cons a l ih =>
    simp only [List.map_cons, List.sum_cons, ih]
    omega

theorem rawSrcEff_timing_jitter_le (op : EngineOp) :
    op.rawSrcEff DetectionSource.Timing + op.rawSrcEff DetectionSource.Jitter
      ≤ op.rawContrib := by
  cases op with
  | rep t w c d => cases t <;> simp [EngineOp.rawSrcEff, EngineOp.rawContrib]
  | contra a b d => simp [EngineOp.rawSrcEff, EngineOp.rawContrib]

theorem new_sw_eq (ops : List EngineOp)
    (hraw : (ops.map EngineOp.rawContrib).sum ≤ U32_MAX) (s : DetectionSource) :
    (runOps ops DecisionEngine.new).source_weights s
      = (ops.map (EngineOp.rawSrcEff s)).sum := by
  have hpt : ∀ op ∈ ops, op.rawContrib ≤ U32_MAX := fun op hop =>
    le_trans (rawContrib_mem_le ops op hop) hraw
  have hmaps : ops.map (EngineOp.srcContrib s) = ops.map (EngineOp.rawSrcEff s) :=
    List.map_congr_left fun op hop => srcContrib_eq_rawSrcEff s op (hpt op hop)
  have hsle : (ops.map (EngineOp.rawSrcEff s)).sum ≤ (ops.map EngineOp.rawContrib).sum :=
    List.sum_le_sum fun op hop => rawSrcEff_le_rawContrib s op
  rw [runOps_source_weights ops DecisionEngine.new s (by simp [DecisionEngine.new])]
  rw [hmaps]
  show ((DecisionEngine.new).source_weights s + _) % (U32_MAX + 1) = _
  simp only [DecisionEngine.new]
  rw [Nat.zero_add, Nat.mod_eq_of_lt (by omega)]

theorem analyze_spec (e : DecisionEngine) :
    e.analyze_contradictions =
      if (e.has_detection DetectionSource.Timing || e.has_detection DetectionSource.Jitter)
          && !e.has_detection DetectionSource.HardwareBreakpoint
          && !e.has_detection DetectionSource.Ptrace then
        if 40 < wrapAdd (e.get_source_weight DetectionSource.Timing)
                        (e.get_source_weight DetectionSource.Jitter) then
          e.record_contradiction DetectionSource.Timing DetectionSource.Ptrace
            timingContradictionMsg
        else e
      else e := rfl

theorem effectiveWeight_conf_one (w : Nat) (hw : w ≤ U32_MAX) : effectiveWeight w 1 = w := by
  unfold effectiveWeight
  rw [mul_one, Int.floor_natCast]
  omega

theorem effectiveWeight_conf_zero (w : Nat) : effectiveWeight w 0 = 0 := by
  unfold effectiveWeight
  rw [mul_zero, Int.floor_zero]
  simp

/-- C3 counterexample: the claim reads the rule as blocked by any
HardwareBreakpoint evidence and quotes the description
"Heavy timing anomaly but no tracer detected".  On the code, evidence of
effective weight 0 from HardwareBreakpoint does not block the rule (the
guard tests for positive-weight evidence only), and the recorded
description is the longer string of `timingContradictionMsg`. -/
theorem claim_C3_counterexample :
    timingContradictionMsg ≠ "Heavy timing anomaly but no tracer detected"
    ∧ (∃ ev ∈ (runOps [EngineOp.rep DetectionSource.Jitter 70 1 "amp",
                       EngineOp.rep DetectionSource.HardwareBreakpoint 20 0 "dr7"]
                 DecisionEngine.new).history,
        ev.source = DetectionSource.HardwareBreakpoint)
    ∧ (runOps [EngineOp.rep DetectionSource.Jitter 70 1 "amp",
               EngineOp.rep DetectionSource.HardwareBreakpoint 20 0 "dr7"]
         DecisionEngine.new).analyze_contradictions.contradictions
      = [{ source_a := DetectionSource.Timing, source_b := DetectionSource.Ptrace,
           description := timingContradictionMsg }] := by
  have h70 : effectiveWeight 70 1 = 70 := effectiveWeight_conf_one 70 (by decide)
  have h200 : effectiveWeight 20 0 = 0 := effectiveWeight_conf_zero 20
  refine ⟨by decide, ?_, ?_⟩ <;>
    simp only [runOps, List.foldl_cons, List.foldl_nil, EngineOp.apply,
      DecisionEngine.report_with_confidence, h70, h200, DecisionEngine.new] <;>
    decide

/-- C3 (amended): over any run of report calls on a fresh engine that does
not saturate u32, `analyze_contradictions` appends exactly one
contradiction `(Timing, Ptrace, timingContradictionMsg)` if and only if
the total effective weight of the Timing and Jitter sources exceeds 40,
no evidence with positive effective weight exists from HardwareBreakpoint
and none from Ptrace (zero-weight evidence does not block the rule);
otherwise it leaves the engine unchanged.  In particular, a single Jitter
report of weight 70 adds a 30-point contradiction and forces verdict
Deceptive. -/
theorem claim_C3_amended_contradiction_rule (ops : List EngineOp)
    (hrep : ∀ op ∈ ops, op.isContra = false)
    (hsat : (ops.map EngineOp.rawContrib).sum ≤ U32_MAX) :
    ((runOps ops DecisionEngine.new).analyze_contradictions.contradictions
        = [{ source_a := DetectionSource.Timing, source_b := DetectionSource.Ptrace,
             description := timingContradictionMsg }]
      ↔ (40 < (ops.map (EngineOp.rawSrcEff DetectionSource.Timing)).sum
              + (ops.map (EngineOp.rawSrcEff DetectionSource.Jitter)).sum
        ∧ ¬ (∃ ev ∈ (runOps ops DecisionEngine.new).history,
               ev.source = DetectionSource.HardwareBreakpoint ∧ 0 < ev.weight)
        ∧ ¬ (∃ ev ∈ (runOps ops DecisionEngine.new).history,
               ev.source = DetectionSource.Ptrace ∧ 0 < ev.weight)))
    ∧ (¬ (40 < (ops.map (EngineOp.rawSrcEff DetectionSource.Timing)).sum
              + (ops.map (EngineOp.rawSrcEff DetectionSource.Jitter)).sum
        ∧ ¬ (∃ ev ∈ (runOps ops DecisionEngine.new).history,
               ev.source = DetectionSource.HardwareBreakpoint ∧ 0 < ev.weight)
        ∧ ¬ (∃ ev ∈ (runOps ops DecisionEngine.new).history,
               ev.source = DetectionSource.Ptrace ∧ 0 < ev.weight))
      → (runOps ops DecisionEngine.new).analyze_contradictions
          = runOps ops DecisionEngine.new)
    ∧ (runOps [EngineOp.rep DetectionSource.Jitter 70 1 "amp"]
         DecisionEngine.new).analyze_contradictions.score
        = (runOps [EngineOp.rep DetectionSource.Jitter 70 1 "amp"]
            DecisionEngine.new).score + 30
    ∧ (runOps [EngineOp.rep DetectionSource.Jitter 70 1 "amp"]
         DecisionEngine.new).analyze_contradictions.decide = Verdict.Deceptive := by
  set E := runOps ops DecisionEngine.new with hE
  set ST := (ops.map (EngineOp.rawSrcEff DetectionSource.Timing)).sum with hST
  set SJ := (ops.map (EngineOp.rawSrcEff DetectionSource.Jitter)).sum with hSJ
  have hcnil : E.contradictions = [] := by
    rw [hE, runOps_contradictions, filterMap_toContra_nil ops hrep]
    simp [DecisionEngine.new]
  have hhist : E.history = ops.filterMap EngineOp.toEvidence := by
    rw [hE, runOps_history]
    simp [DecisionEngine.new]
  have hswT : E.source_weights DetectionSource.Timing = ST := new_sw_eq ops hsat _
  have hswJ : E.source_weights DetectionSource.Jitter = SJ := new_sw_eq ops hsat _
  have hTJ : ST + SJ ≤ U32_MAX := by
    have hsum : ST + SJ = (ops.map fun op =>
        op.rawSrcEff DetectionSource.Timing + op.rawSrcEff DetectionSource.Jitter).sum := by
      rw [sum_map_add_distrib]
    have hle : (ops.map fun op =>
        op.rawSrcEff DetectionSource.Timing + op.rawSrcEff DetectionSource.Jitter).sum
        ≤ (ops.map EngineOp.rawContrib).sum :=
      List.sum_le_sum fun op hop => rawSrcEff_timing_jitter_le op
    omega
  have htw : wrapAdd (E.get_source_weight DetectionSource.Timing)
      (E.get_source_weight DetectionSource.Jitter) = ST + SJ := by
    unfold DecisionEngine.get_source_weight
    rw [hswT, hswJ]
    unfold wrapAdd
    exact Nat.mod_eq_of_lt (by omega)
  have hpt : ∀ op ∈ ops, op.rawContrib ≤ U32_MAX := fun op hop =>
    le_trans (rawContrib_mem_le ops op hop) hsat
  have hhistsum : ∀ s : DetectionSource,
      (ops.map (EngineOp.rawSrcEff s)).sum
        = (E.history.map (fun ev => if ev.source = s then ev.weight else 0)).sum := by
    intro s
    rw [hhist, ← srcContrib_sum_eq_hist,
      List.map_congr_left fun op hop => srcContrib_eq_rawSrcEff s op (hpt op hop)]
  have hor_of_40 : 40 < ST + SJ →
      (E.has_detection DetectionSource.Timing || E.has_detection DetectionSource.Jitter)
        = true := by
    intro h40
    have hcase : 0 < ST ∨ 0 < SJ := by omega
    rw [Bool.or_eq_true]
    rcases hcase with h | h
    · left
      rw [hST, hhistsum DetectionSource.Timing] at h
      exact (has_detection_iff E _).mpr (exists_pos_of_weight_sum_pos h)
    · right
      rw [hSJ, hhistsum DetectionSource.Jitter] at h
      exact (has_detection_iff E _).mpr (exists_pos_of_weight_sum_pos h)
  refine ⟨?_, ?_, ?_, ?_⟩
  · constructor
    · intro hrec
      by_cases hguard : ((E.has_detection DetectionSource.Timing
          || E.has_detection DetectionSource.Jitter)
          && !E.has_detection DetectionSource.HardwareBreakpoint
          && !E.has_detection DetectionSource.Ptrace) = true
      · by_cases htw40 : 40 < wrapAdd (E.get_source_weight DetectionSource.Timing)
            (E.get_source_weight DetectionSource.Jitter)
        · have hcomp := hguard
          simp only [Bool.and_eq_true, Bool.or_eq_true, Bool.not_eq_true'] at hcomp
          obtain ⟨⟨hor, hHWf⟩, hPtf⟩ := hcomp
          refine ⟨by rw [← htw]; exact htw40, ?_, ?_⟩
          · intro hex
            have hcontr := (has_detection_iff E DetectionSource.HardwareBreakpoint).mpr hex
            rw [hHWf] at hcontr
            cases hcontr
          · intro hex
            have hcontr := (has_detection_iff E DetectionSource.Ptrace).mpr hex
            rw [hPtf] at hcontr
            cases hcontr
        · rw [analyze_spec, if_pos hguard, if_neg htw40, hcnil] at hrec
          cases hrec
      · rw [analyze_spec, if_neg hguard, hcnil] at hrec
        cases hrec
    · intro ⟨h40, hnHW, hnPt⟩
      have hHWf : E.has_detection DetectionSource.HardwareBreakpoint = false := by
        cases hb : E.has_detection DetectionSource.HardwareBreakpoint
        · rfl
        · exact absurd ((has_detection_iff E _).mp hb) hnHW
      have hPtf : E.has_detection DetectionSource.Ptrace = false := by
        cases hb : E.has_detection DetectionSource.Ptrace
        · rfl
        · exact absurd ((has_detection_iff E _).mp hb) hnPt
      have hcond : ((E.has_detection DetectionSource.Timing
          || E.has_detection DetectionSource.Jitter)
          && !E.has_detection DetectionSource.HardwareBreakpoint
          && !E.has_detection DetectionSource.Ptrace) = true := by
        rw [hor_of_40 h40, hHWf, hPtf]
        rfl
      rw [analyze_spec, if_pos hcond, if_pos (by rw [htw]; exact h40)]
      simp [DecisionEngine.record_contradiction, hcnil]
  · intro hncond
    by_cases hguard : ((E.has_detection DetectionSource.Timing
        || E.has_detection DetectionSource.Jitter)
        && !E.has_detection DetectionSource.HardwareBreakpoint
        && !E.has_detection DetectionSource.Ptrace) = true
    · have hcomp := hguard
      simp only [Bool.and_eq_true, Bool.or_eq_true, Bool.not_eq_true'] at hcomp
      obtain ⟨⟨hor, hHWf⟩, hPtf⟩ := hcomp
      have hnHW : ¬ (∃ ev ∈ E.history,
          ev.source = DetectionSource.HardwareBreakpoint ∧ 0 < ev.weight) := by
        intro hex
        have hcontr := (has_detection_iff E _).mpr hex
        rw [hHWf] at hcontr
        cases hcontr
      have hnPt : ¬ (∃ ev ∈ E.history,
          ev.source = DetectionSource.Ptrace ∧ 0 < ev.weight) := by
        intro hex
        have hcontr := (has_detection_iff E _).mpr hex
        rw [hPtf] at hcontr
        cases hcontr
      have h40f : ¬ 40 < ST + SJ := fun h40 => hncond ⟨h40, hnHW, hnPt⟩
      rw [analyze_spec, if_pos hguard, if_neg (by rw [htw]; exact h40f)]
    · rw [analyze_spec, if_neg hguard]
  · have h70 : effectiveWeight 70 1 = 70 := effectiveWeight_conf_one 70 (by decide)
    simp only [runOps, List.foldl_cons, List.foldl_nil, EngineOp.apply,
      DecisionEngine.report_with_confidence, h70, DecisionEngine.new]
    decide
  · have h70 : effectiveWeight 70 1 = 70 := effectiveWeight_conf_one 70 (by decide)
    simp only [runOps, List.foldl_cons, List.foldl_nil, EngineOp.apply,
      DecisionEngine.report_with_confidence, h70, DecisionEngine.new]
    decide

/-- Witness for the amended C3 at a single Timing report of weight 10:
the rule does not fire and the engine is unchanged. -/
theorem claim_C3_amended_witness :
    (runOps [EngineOp.rep DetectionSource.Timing 10 1 "t"]
        DecisionEngine.new).analyze_contradictions
      = runOps [EngineOp.rep DetectionSource.Timing 10 1 "t"] DecisionEngine.new := by
  have hsatW : ([EngineOp.rep DetectionSource.Timing 10 1 "t"].map
      EngineOp.rawContrib).sum ≤ U32_MAX := by
    simp only [List.map_cons, List.map_nil, List.sum_cons, List.sum_nil, EngineOp.rawContrib]
    rw [mul_one, Int.floor_natCast]
    simp only [U32_MAX]
    omega
  refine (claim_C3_amended_contradiction_rule
      [EngineOp.rep DetectionSource.Timing 10 1 "t"] (by decide) hsatW).2.1 ?_
  intro hc
  have h1 := hc.1
  simp only [List.map_cons, List.map_nil, List.sum_cons, List.sum_nil,
    EngineOp.rawSrcEff] at h1
  rw [mul_one, Int.floor_natCast] at h1
  simp at h1

/-- The damping factor computed by `EnvironmentState::calculate_adjustment`
in `src/engine/environment.rs`, as a function of the sampled governor and
SMT state (the warning strings are log-only and dropped). -/
def calculate_adjustment (cpu_governor : Option String) (smt_active : Option Bool) : ℚ :=
  let factor : ℚ := 1
  let factor :=
    match cpu_governor with
    | some gov =>
        if gov = "performance" then factor
        else if gov = "schedutil" ∨ gov = "ondemand" ∨ gov = "conservative" then
          factor * (7/10)
        else if gov = "powersave" then factor * (1/2)
        else factor * (9/10)
    | none => factor
  let factor := if smt_active = some true then factor * (9/10) else factor
  factor

/-- Governor damping as the spec words it: performance damps by 1.0;
schedutil, ondemand or conservative by 0.7; powersave by 0.5; any other
sampled governor by 0.9; an unreadable governor by 1.0. -/
def specGovernorDamping : Option String → ℚ
  | none => 1
  | some gov =>
      if gov = "performance" then 1
      else if gov = "schedutil" ∨ gov = "ondemand" ∨ gov = "conservative" then 7/10
      else if gov = "powersave" then 1/2
      else 9/10

/-- SMT damping as the spec words it: 0.9 when SMT is active, else 1.0. -/
def specSmtDamping : Option Bool → ℚ
  | some true => 9/10
  | _ => 1

/-- C6: the adjustment factor is the product of the governor damping and
the SMT damping and always lies in (0, 1]; in particular powersave with
SMT active gives 0.45, which damps a raw score of 100 to 45 and, absent
contradictions, yields verdict Suspicious. -/
theorem claim_C6_adjustment_factor :
    (∀ (gov : Option String) (smt : Option Bool),
      calculate_adjustment gov smt = specGovernorDamping gov * specSmtDamping smt
      ∧ 0 < calculate_adjustment gov smt ∧ calculate_adjustment gov smt ≤ 1)
    ∧ calculate_adjustment (some "powersave") (some true) = 9/20
    ∧ ((engineWithScore 100).apply_environmental_adjustment
        (calculate_adjustment (some "powersave") (some true))).score = 45
    ∧ ((engineWithScore 100).apply_environmental_adjustment
        (calculate_adjustment (some "powersave") (some true))).decide
      = Verdict.Suspicious := by
  have hmain : ∀ (gov : Option String) (smt : Option Bool),
      calculate_adjustment gov smt = specGovernorDamping gov * specSmtDamping smt
      ∧ 0 < calculate_adjustment gov smt ∧ calculate_adjustment gov smt ≤ 1 := by
    intro gov smt
    have heq : calculate_adjustment gov smt
        = specGovernorDamping gov * specSmtDamping smt := by
      rcases gov with _ | g
      · rcases smt with _ | b
        · simp [calculate_adjustment, specGovernorDamping, specSmtDamping]
        · cases b <;>
            simp [calculate_adjustment, specGovernorDamping, specSmtDamping]
      · rcases smt with _ | b
        · simp only [calculate_adjustment, specGovernorDamping, specSmtDamping]
          split_ifs <;> first | rfl | simp_all | norm_num
        · cases b <;>
            · simp only [calculate_adjustment, specGovernorDamping, specSmtDamping]
              split_ifs <;> first | rfl | simp_all | norm_num
    have hg : 0 < specGovernorDamping gov ∧ specGovernorDamping gov ≤ 1 := by
      rcases gov with _ | g
      · simp [specGovernorDamping]
      · simp only [specGovernorDamping]
        split_ifs <;> norm_num
    have hs : 0 < specSmtDamping smt ∧ specSmtDamping smt ≤ 1 := by
      rcases smt with _ | b
      · simp [specSmtDamping]
      · cases b <;> simp [specSmtDamping] <;> norm_num
    refine ⟨heq, ?_, ?_⟩
    · rw [heq]; exact mul_pos hg.1 hs.1
    · rw [heq]; exact mul_le_one₀ hg.2 hs.1.le hs.2
  have hpv : calculate_adjustment (some "powersave") (some true) = 9/20 := by
    simp only [calculate_adjustment]
    norm_num
    rw [if_neg (by decide : ¬ ("powersave" = "performance")),
      if_neg (by decide : ¬ ("powersave" = "schedutil" ∨ "powersave" = "ondemand"
        ∨ "powersave" = "conservative"))]
  have hsc : ((engineWithScore 100).apply_environmental_adjustment
      (calculate_adjustment (some "powersave") (some true))).score = 45 := by
    rw [hpv]
    unfold DecisionEngine.apply_environmental_adjustment
    rw [if_pos (by norm_num)]
    show min (Int.toNat ⌊((100 : Nat) : ℚ) * (9/20)⌋) U32_MAX = 45
    have hfl : ⌊((100 : Nat) : ℚ) * (9/20)⌋ = 45 := by norm_num
    rw [hfl]
    simp only [U32_MAX]
    omega
  refine ⟨hmain, hpv, hsc, ?_⟩
  have hcon : ((engineWithScore 100).apply_environmental_adjustment
      (calculate_adjustment (some "powersave") (some true))).contradictions = [] := by
    unfold DecisionEngine.apply_environmental_adjustment
    split <;> rfl
  unfold DecisionEngine.decide
  rw [hcon, hsc]
  decide

/-- Process-wide signal-compatibility state from
`src/engine/signal_compat.rs`: the `GDB_COMPAT_MODE` flag and the cached
`TracerPid` value (0 means no tracer). -/
structure SignalCompatState where
  gdb_compat_mode : Bool
  tracer_pid : Nat

/-- The signal-exception arm of the hardware-breakpoint detector
(`check_via_signal_exception` in `src/detectors/hardware_bp.rs`).  The
returned Bool records whether the destructive DR7 fault probe (handler
install plus `check_debug_registers_via_signal`) executes; `faulted`
models whether the probed DR7 read raised SIGSEGV, which is hardware and
hypervisor behavior outside the program.  The code consults only
`get_tracer_pid()`; it never reads the compat-mode flag. -/
def check_via_signal_exception (st : SignalCompatState) (faulted : Bool)
    (e : DecisionEngine) : Bool × DecisionEngine :=
  if 0 < st.tracer_pid then
    (false, e.report_with_confidence DetectionSource.HardwareBreakpoint 20 (7/10)
      "DR7 signal check skipped due to tracer")
  else
    (true,
      if faulted then e
      else e.report DetectionSource.HardwareBreakpoint 30
        "DR7 access did not fault - hypervisor virtualization detected")

/-- C4 counterexample: with compat mode enabled but no tracer attached,
the signal-exception arm still executes the destructive DR7 fault probe —
the code gates the probe on the tracer only, never on compat mode. -/
theorem claim_C4_counterexample :
    ({ gdb_compat_mode := true, tracer_pid := 0 } : SignalCompatState).gdb_compat_mode = true
    ∧ (check_via_signal_exception { gdb_compat_mode := true, tracer_pid := 0 } true
        DecisionEngine.new).1 = true :=
  ⟨rfl, rfl⟩

/-- C4 (amended): the signal-exception arm skips the destructive DR7
fault probe, substituting the non-destructive weight-20 confidence-0.7
report, exactly when a tracer is attached (tracer_pid > 0); enabling
compat mode alone does not prevent the fault probe. -/
theorem claim_C4_amended_tracer_gates_fault_probe :
    ∀ (st : SignalCompatState) (faulted : Bool) (e : DecisionEngine),
      ((check_via_signal_exception st faulted e).1 = false ↔ 0 < st.tracer_pid)
      ∧ (0 < st.tracer_pid →
          (check_via_signal_exception st faulted e).2
            = e.report_with_confidence DetectionSource.HardwareBreakpoint 20 (7/10)
                "DR7 signal check skipped due to tracer") := by
  intro st f e
  unfold check_via_signal_exception
  by_cases h : 0 < st.tracer_pid
  · rw [if_pos h]
    exact ⟨⟨fun _ => h, fun _ => rfl⟩, fun _ => rfl⟩
  · rw [if_neg h]
    simp [h]

/-- Witness for the amended C4 at tracer_pid 7: the probe is skipped and
the substitute report is appended. -/
theorem claim_C4_amended_witness :
    (check_via_signal_exception { gdb_compat_mode := false, tracer_pid := 7 } true
        DecisionEngine.new).1 = false
    ∧ (check_via_signal_exception { gdb_compat_mode := false, tracer_pid := 7 } true
        DecisionEngine.new).2
      = DecisionEngine.new.report_with_confidence DetectionSource.HardwareBreakpoint 20 (7/10)
          "DR7 signal check skipped due to tracer" := by
  have h := claim_C4_amended_tracer_gates_fault_probe
    { gdb_compat_mode := false, tracer_pid := 7 } true DecisionEngine.new
  exact ⟨h.1.mpr (by decide), h.2 (by decide)⟩

/-- Jitter statistics from `src/detectors/jitter.rs` (struct JitterStats).
The f64 fields are exact rationals per the embedding convention.  The two
derived fields `stddev = sqrt(variance)` and `cv = stddev / mean` (0 when
`mean = 0`) are irrational-valued and determined by `variance` and `mean`;
no claim depends on them, and in the empty-sample case the code returns
them as the literal 0, the square root of the returned variance 0, so they
are omitted from the embedding. -/
structure JitterStats where
  instruction : String
  samples : Nat
  mean : ℚ
  variance : ℚ
  min : Nat
  max : Nat
  p50 : Nat
  p95 : Nat
  p99 : Nat
  bimodal : Bool
deriving DecidableEq

/-- Modulus of Rust `u64` arithmetic: `2 ^ 64`. -/
def U64_MOD : Nat := 18446744073709551616

/-- `JitterStats::from_samples` from `src/detectors/jitter.rs`.  The Rust
percentile index `(len as f64 * 0.95) as usize` is the floor of
`len * 0.95` in exact arithmetic, written here as the Nat division
`len * 95 / 100` (and likewise for p99); `sort_unstable` is an ascending
sort, and sorting in place is modelled by sorting the local copy.  The two
u64 integer operations, `samples.iter().sum()` and the product `p50 * 5`
in the bimodal test, are unchecked u64 arithmetic and wrap modulo `2 ^ 64`
in release builds, so they are reduced modulo `U64_MOD` here, matching the
wrapping convention used for the unchecked u32 adds. -/
def JitterStats.from_samples (instruction : String) (samples : List Nat) : JitterStats :=
  match samples with
  | [] =>
      { instruction := instruction, samples := 0, mean := 0, variance := 0,
        min := 0, max := 0, p50 := 0, p95 := 0, p99 := 0, bimodal := false }
  | x :: xs =>
      let l := x :: xs
      let n : ℚ := l.length
      let sum : Nat := l.sum % U64_MOD
      let mean : ℚ := (sum : ℚ) / n
      let variance : ℚ :=
        ((l.map fun v => ((v : ℚ) - mean) * ((v : ℚ) - mean)).sum) / n
      let sorted := l.insertionSort (· ≤ ·)
      let min := sorted.headD 0
      let max := sorted.getLastD 0
      let p50 := sorted.getD (l.length / 2) 0
      let p95 := sorted.getD (l.length * 95 / 100) 0
      let p99 := sorted.getD (l.length * 99 / 100) 0
      let bimodal := decide ((p50 * 5) % U64_MOD < p95) && decide (1000 < p95)
      { instruction := instruction, samples := l.length, mean := mean,
        variance := variance, min := min, max := max, p50 := p50, p95 := p95,
        p99 := p99, bimodal := bimodal }

/-- Samples on which the u64 multiply `p50 * 5` of the bimodal test
overflows: nineteen samples of `2 ^ 63` and one of `2 ^ 63 + 1000000`,
giving p50 = `2 ^ 63` and p95 = `2 ^ 63 + 1000000`. -/
def overflowSamples : List Nat := List.replicate 19 (2 ^ 63) ++ [2 ^ 63 + 1000000]

/-- C8 counterexample: on `overflowSamples` the release-mode code wraps
`p50 * 5` to `2 ^ 63` and sets bimodal true, while the exact condition of
the claim, p95 greater than both `5 * p50` and 1000, is false there
(`5 * p50` exceeds p95 exactly). -/
theorem claim_C8_counterexample :
    (JitterStats.from_samples "NOP x100" overflowSamples).bimodal = true
    ∧ ¬ ((JitterStats.from_samples "NOP x100" overflowSamples).p50 * 5
          < (JitterStats.from_samples "NOP x100" overflowSamples).p95
        ∧ 1000 < (JitterStats.from_samples "NOP x100" overflowSamples).p95) :=
  ⟨by decide, by decide⟩

/-- C8 (amended): `from_samples` on the empty sample vector returns
all-zero statistics with bimodal false; on any identical sample vector it
is deterministic; on any non-empty sample vector it sets bimodal true
exactly when the extracted p95 exceeds both the u64 product `p50 * 5`
(which wraps modulo `2 ^ 64`) and 1000; and whenever that product does not
overflow u64 this is exactly the exact-arithmetic condition of the
original claim. -/
theorem claim_C8_amended_jitter_stats :
    (∀ i : String, JitterStats.from_samples i [] =
      { instruction := i, samples := 0, mean := 0, variance := 0, min := 0, max := 0,
        p50 := 0, p95 := 0, p99 := 0, bimodal := false })
    ∧ (∀ (i : String) (s1 s2 : List Nat), s1 = s2 →
        JitterStats.from_samples i s1 = JitterStats.from_samples i s2)
    ∧ (∀ (i : String) (s : List Nat), s ≠ [] →
        ((JitterStats.from_samples i s).bimodal = true ↔
          ((JitterStats.from_samples i s).p50 * 5) % U64_MOD
              < (JitterStats.from_samples i s).p95
          ∧ 1000 < (JitterStats.from_samples i s).p95))
    ∧ (∀ (i : String) (s : List Nat), s ≠ [] →
        (JitterStats.from_samples i s).p50 * 5 < U64_MOD →
        ((JitterStats.from_samples i s).bimodal = true ↔
          (JitterStats.from_samples i s).p50 * 5 < (JitterStats.from_samples i s).p95
          ∧ 1000 < (JitterStats.from_samples i s).p95)) := by
  have hwrap : ∀ (i : String) (s : List Nat), s ≠ [] →
      ((JitterStats.from_samples i s).bimodal = true ↔
        ((JitterStats.from_samples i s).p50 * 5) % U64_MOD
            < (JitterStats.from_samples i s).p95
        ∧ 1000 < (JitterStats.from_samples i s).p95) := by
    intro i s hne
    rcases s with _ | ⟨x, xs⟩
    · exact absurd rfl hne
    · simp only [JitterStats.from_samples]
      simp [Bool.and_eq_true, decide_eq_true_eq]
  refine ⟨fun i => rfl, fun i s1 s2 h => by rw [h], hwrap, ?_⟩
  intro i s hne hnov
  rw [hwrap i s hne, Nat.mod_eq_of_lt hnov]

/-- Witness for the amended C8 at the sample vector [1, 1, 1, 5000]:
non-empty, the p50 product does not overflow, bimodal comes out true via
the overflow-free characterization, and determinism applies. -/
theorem claim_C8_witness :
    ([1, 1, 1, 5000] : List Nat) ≠ []
    ∧ (JitterStats.from_samples "amp" [1, 1, 1, 5000]).p50 * 5 < U64_MOD
    ∧ (JitterStats.from_samples "amp" [1, 1, 1, 5000]).bimodal = true
    ∧ JitterStats.from_samples "amp" [1, 1, 1, 5000]
        = JitterStats.from_samples "amp" [1, 1, 1, 5000] := by
  refine ⟨by decide, by decide, ?_,
    claim_C8_amended_jitter_stats.2.1 "amp" [1, 1, 1, 5000] [1, 1, 1, 5000] rfl⟩
  exact (claim_C8_amended_jitter_stats.2.2.2 "amp" [1, 1, 1, 5000]
    (by decide) (by decide)).mpr (by decide)

/-- Above this count, INT3 bytes are treated as compiler alignment
(`src/detectors/int3.rs`). -/
def INT3_ALIGNMENT_THRESHOLD : Nat := 1000

/-- Below this count, INT3 bytes are treated as likely breakpoints
(`src/detectors/int3.rs`). -/
def INT3_BREAKPOINT_THRESHOLD : Nat := 20

/-- The scanning loop of `analyze_int3_pattern` in `src/detectors/int3.rs`
over the byte region, carrying (total_count, current_cluster,
largest_cluster, num_clusters); the base case performs the trailing
cluster handling after the loop.  Returns (total, largest, clusters). -/
def int3Loop : List Nat → Nat → Nat → Nat → Nat → Nat × Nat × Nat
  | [], total, current, largest, clusters =>
      (total,
       if largest < current then current else largest,
       if 4 ≤ current then clusters + 1 else clusters)
  | b :: bs, total, current, largest, clusters =>
      if b = 0xCC then
        int3Loop bs (total + 1) (current + 1) largest clusters
      else
        if 0 < current then
          int3Loop bs total 0
            (if largest < current then current else largest)
            (if 4 ≤ current then clusters + 1 else clusters)
        else
          int3Loop bs total 0 largest clusters

/-- `analyze_int3_pattern` from `src/detectors/int3.rs`: returns
(total_count, largest_cluster, is_likely_alignment) for the byte region. -/
def analyze_int3_pattern (bytes : List Nat) : Nat × Nat × Bool :=
  let r := int3Loop bytes 0 0 0 0
  (r.1, r.2.1, decide (16 ≤ r.2.1) || (decide (0 < r.2.2) && decide (100 < r.1)))

/-- Number of 0xCC bytes in the region (`scan_for_int3`). -/
def countCC (bytes : List Nat) : Nat := bytes.countP fun b => decide (b = 0xCC)

/-- Run lengths of the maximal stretches of consecutive 0xCC bytes,
starting from a pending run of length `current`; zero-length entries may
appear between adjacent non-CC bytes and affect neither sums, maxima nor
the count of runs of length at least 4. -/
def ccRunsAux (current : Nat) : List Nat → List Nat
  | [] => [current]
  | b :: bs => if b = 0xCC then ccRunsAux (current + 1) bs else current :: ccRunsAux 0 bs

/-- Run lengths of the maximal stretches of consecutive 0xCC bytes. -/
def ccRuns (bytes : List Nat) : List Nat := ccRunsAux 0 bytes

/-- Length of the largest run of consecutive 0xCC bytes. -/
def maxRunCC (bytes : List Nat) : Nat := (ccRuns bytes).foldr max 0

theorem int3Loop_fst (bs : List Nat) :
    ∀ t c l k, (int3Loop bs t c l k).1 = t + countCC bs := by
  induction bs with
  | nil => intro t c l k; simp [int3Loop, countCC]
  | cons b bs ih =>
    intro t c l k
    by_cases hb : b = 0xCC
    · rw [int3Loop, if_pos hb, ih]
      simp [countCC, List.countP_cons, hb]
      omega
    · rw [int3Loop, if_neg hb]
      have hcc : countCC (b :: bs) = countCC bs := by
        simp [countCC, List.countP_cons, hb]
      rw [hcc]
      by_cases hc : 0 < c
      · rw [if_pos hc, ih]
      · rw [if_neg hc, ih]

theorem int3Loop_largest (bs : List Nat) :
    ∀ t c l k, (int3Loop bs t c l k).2.1 = max l ((ccRunsAux c bs).foldr max 0) := by
  induction bs with
  | nil =>
    intro t c l k
    show (if l < c then c else l) = max l (max c 0)
    split <;> omega
  | cons b bs ih =>
    intro t c l k
    by_cases hb : b = 0xCC
    · rw [int3Loop, if_pos hb, ih]
      rw [ccRunsAux, if_pos hb]
    · rw [int3Loop, if_neg hb]
      rw [ccRunsAux, if_neg hb]
      show _ = max l (max c ((ccRunsAux 0 bs).foldr max 0))
      by_cases hc : 0 < c
      · rw [if_pos hc, ih]
        have hmx : (if l < c then c else l) = max l c := by split <;> omega
        rw [hmx]
        omega
      · rw [if_neg hc, ih]
        have hc0 : c = 0 := by omega
        rw [hc0]
        omega

theorem int3Loop_clusters (bs : List Nat) :
    ∀ t c l k, (int3Loop bs t c l k).2.2
      = k + (ccRunsAux c bs).countP (fun r => decide (4 ≤ r)) := by
  induction bs with
  | nil =>
    intro t c l k
    show (if 4 ≤ c then k + 1 else k) = k + [c].countP (fun r => decide (4 ≤ r))
    simp [List.countP_cons]
    split <;> simp_all
  | cons b bs ih =>
    intro t c l k
    by_cases hb : b = 0xCC
    · rw [int3Loop, if_pos hb, ih, ccRunsAux, if_pos hb]
    · rw [int3Loop, if_neg hb, ccRunsAux, if_neg hb]
      rw [List.countP_cons]
      by_cases hc4 : 4 ≤ c
      · have hc : 0 < c := by omega
        rw [if_pos hc, ih, if_pos hc4]
        simp [hc4]
        omega
      · by_cases hc : 0 < c
        · rw [if_pos hc, ih, if_neg hc4]
          simp [hc4]
        · rw [if_neg hc, ih]
          simp [hc4]

/-- Tier selection of `check_int3_scanning` in `src/detectors/int3.rs`:
(weight, confidence, reason) from the analyzed total and alignment flag. -/
def int3Tier (total : Nat) (is_alignment : Bool) : Nat × ℚ × String :=
  if INT3_ALIGNMENT_THRESHOLD < total ∧ is_alignment = true then
    (1, 1/10, "Compiler alignment padding (dense clusters, high count)")
  else if is_alignment = true ∧ 100 < total then
    (2, 3/10, "Likely compiler alignment (clustered pattern)")
  else if INT3_BREAKPOINT_THRESHOLD < total then
    (5, 1/2, "Ambiguous INT3 pattern (possible breakpoints or alignment)")
  else
    (25, 8/10, "Likely debugger breakpoints (few, scattered)")

/-- Per-region body of `check_int3_scanning` in `src/detectors/int3.rs`:
skip when the region holds no 0xCC byte, otherwise classify and report
(the formatted count and address-range suffix of the details string is
dropped; no claim reads it). -/
def int3Report (bytes : List Nat) (e : DecisionEngine) : DecisionEngine :=
  let count := countCC bytes
  if count = 0 then e
  else
    let r := analyze_int3_pattern bytes
    let wcr := int3Tier r.1 r.2.2
    e.report_with_confidence DetectionSource.Int3 wcr.1 wcr.2.1 wcr.2.2

/-- The (weight, confidence) tier table as the spec words it. -/
def specTier (total : Nat) (al : Bool) : Nat × ℚ :=
  if 1000 < total ∧ al = true then (1, 1/10)
  else if al = true ∧ 100 < total then (2, 3/10)
  else if 20 < total then (5, 1/2)
  else (25, 8/10)

theorem int3Tier_weight (total : Nat) (al : Bool) :
    (int3Tier total al).1 = (specTier total al).1 := by
  unfold int3Tier specTier INT3_ALIGNMENT_THRESHOLD INT3_BREAKPOINT_THRESHOLD
  split_ifs <;> rfl

theorem int3Tier_conf (total : Nat) (al : Bool) :
    (int3Tier total al).2.1 = (specTier total al).2 := by
  unfold int3Tier specTier INT3_ALIGNMENT_THRESHOLD INT3_BREAKPOINT_THRESHOLD
  split_ifs <;> rfl

theorem int3Loop_replicate_cc (n : Nat) (bs : List Nat) :
    ∀ t c l k, int3Loop (List.replicate n 0xCC ++ bs) t c l k
      = int3Loop bs (t + n) (c + n) l k := by
  induction n with
  | zero => intro t c l k; simp
  | succ n ih =>
    intro t c l k
    rw [List.replicate_succ, List.cons_append]
    have h1 : int3Loop (0xCC :: (List.replicate n 0xCC ++ bs)) t c l k
        = int3Loop (List.replicate n 0xCC ++ bs) (t + 1) (c + 1) l k := by
      rw [int3Loop, if_pos rfl]
    rw [h1, ih]
    have h2 : t + 1 + n = t + (n + 1) := by omega
    have h3 : c + 1 + n = c + (n + 1) := by omega
    rw [h2, h3]

theorem int3Loop_blocks (m : Nat) (bs : List Nat) :
    ∀ t k l, l ≤ 64 → 0 < m →
      int3Loop ((List.replicate m (List.replicate 64 0xCC ++ [0])).flatten ++ bs) t 0 l k
        = int3Loop bs (t + 64 * m) 0 64 (k + m) := by
  induction m with
  | zero => intro t k l hl h0; simp at h0
  | succ m ih =>
    intro t k l hl _
    rw [List.replicate_succ, List.flatten_cons, List.append_assoc, List.append_assoc,
      int3Loop_replicate_cc]
    rw [List.singleton_append]
    have hsep : int3Loop (0 :: ((List.replicate m (List.replicate 64 0xCC ++ [0])).flatten
        ++ bs)) (t + 64) (0 + 64) l k
        = int3Loop ((List.replicate m (List.replicate 64 0xCC ++ [0])).flatten ++ bs)
            (t + 64) 0 (if l < 0 + 64 then 0 + 64 else l) (if 4 ≤ 0 + 64 then k + 1 else k) := by
      rw [int3Loop, if_neg (by decide), if_pos (by omega)]
    rw [hsep]
    have h1 : (if l < 0 + 64 then 0 + 64 else l) = 64 := by split <;> omega
    have h2 : (if 4 ≤ 0 + 64 then k + 1 else k) = k + 1 := by split <;> omega
    rw [h1, h2]
    rcases Nat.eq_zero_or_pos m with hm | hm
    · subst hm
      simp only [List.replicate, List.flatten_nil, List.nil_append]
    · rw [ih _ _ _ (le_refl 64) hm]
      have e1 : t + 64 + 64 * m = t + 64 * (m + 1) := by ring
      have e2 : k + 1 + m = k + (m + 1) := by omega
      rw [e1, e2]

/-- A byte region with 5000 bytes of 0xCC: 78 clusters of 64 separated by
a zero byte, and a trailing run of 8. -/
def region5000 : List Nat :=
  (List.replicate 78 (List.replicate 64 0xCC ++ [0])).flatten ++ List.replicate 8 0xCC

theorem analyze_region5000 : analyze_int3_pattern region5000 = (5000, 64, true) := by
  have hloop : int3Loop region5000 0 0 0 0 = (5000, 64, 79) := by
    unfold region5000
    rw [int3Loop_blocks 78 _ 0 0 0 (by omega) (by omega)]
    rw [← List.append_nil (List.replicate 8 0xCC), int3Loop_replicate_cc]
    rw [int3Loop]
    norm_num
  unfold analyze_int3_pattern
  rw [hloop]
  decide

/-- C9: for every scanned byte region containing at least one 0xCC byte,
the INT3 detector reports weight and confidence per the tier table over
the total count and the alignment flag, where the analysis returns the
exact 0xCC count, the largest run of consecutive 0xCC bytes, and an
alignment flag that holds exactly when the largest run is at least 16 or
some run has length at least 4 and the total exceeds 100; in particular a
region with 5000 total 0xCC bytes and largest cluster 64 reports weight 1
at confidence 0.1, contributing 0 to the score. -/
theorem claim_C9_int3_classification :
    (∀ (bytes : List Nat) (e : DecisionEngine), 0 < countCC bytes →
      (analyze_int3_pattern bytes).1 = countCC bytes
      ∧ (analyze_int3_pattern bytes).2.1 = maxRunCC bytes
      ∧ ((analyze_int3_pattern bytes).2.2 = true ↔
          16 ≤ maxRunCC bytes ∨ ((∃ r ∈ ccRuns bytes, 4 ≤ r) ∧ 100 < countCC bytes))
      ∧ ((int3Report bytes e).history.map fun ev => (ev.source, ev.weight, ev.confidence))
          = (e.history.map fun ev => (ev.source, ev.weight, ev.confidence))
            ++ [(DetectionSource.Int3,
                 effectiveWeight
                   (specTier (countCC bytes) (analyze_int3_pattern bytes).2.2).1
                   (specTier (countCC bytes) (analyze_int3_pattern bytes).2.2).2,
                 (specTier (countCC bytes) (analyze_int3_pattern bytes).2.2).2)])
    ∧ analyze_int3_pattern region5000 = (5000, 64, true)
    ∧ (int3Report region5000 DecisionEngine.new).history.map Evidence.weight = [0]
    ∧ (int3Report region5000 DecisionEngine.new).score = 0 := by
  have hW10 : effectiveWeight 1 (1/10) = 0 := by
    unfold effectiveWeight
    rw [show ((1 : Nat) : ℚ) * (1/10) = 1/10 by norm_num,
      show ⌊(1/10 : ℚ)⌋ = 0 by norm_num]
    simp
  have hW10i : effectiveWeight 1 ((10 : ℚ)⁻¹) = 0 := by
    rw [show ((10 : ℚ))⁻¹ = 1/10 by norm_num]
    exact hW10
  have hgen : ∀ (bytes : List Nat) (e : DecisionEngine), 0 < countCC bytes →
      (analyze_int3_pattern bytes).1 = countCC bytes
      ∧ (analyze_int3_pattern bytes).2.1 = maxRunCC bytes
      ∧ ((analyze_int3_pattern bytes).2.2 = true ↔
          16 ≤ maxRunCC bytes ∨ ((∃ r ∈ ccRuns bytes, 4 ≤ r) ∧ 100 < countCC bytes))
      ∧ ((int3Report bytes e).history.map fun ev => (ev.source, ev.weight, ev.confidence))
          = (e.history.map fun ev => (ev.source, ev.weight, ev.confidence))
            ++ [(DetectionSource.Int3,
                 effectiveWeight
                   (specTier (countCC bytes) (analyze_int3_pattern bytes).2.2).1
                   (specTier (countCC bytes) (analyze_int3_pattern bytes).2.2).2,
                 (specTier (countCC bytes) (analyze_int3_pattern bytes).2.2).2)] := by
    intro bytes e h0
    have ht : (analyze_int3_pattern bytes).1 = countCC bytes := by
      show (int3Loop bytes 0 0 0 0).1 = countCC bytes
      rw [int3Loop_fst]
      omega
    have hl : (analyze_int3_pattern bytes).2.1 = maxRunCC bytes := by
      show (int3Loop bytes 0 0 0 0).2.1 = maxRunCC bytes
      rw [int3Loop_largest]
      unfold maxRunCC ccRuns
      omega
    refine ⟨ht, hl, ?_, ?_⟩
    · show (decide (16 ≤ (int3Loop bytes 0 0 0 0).2.1)
          || (decide (0 < (int3Loop bytes 0 0 0 0).2.2)
              && decide (100 < (int3Loop bytes 0 0 0 0).1))) = true ↔ _
      rw [int3Loop_fst, int3Loop_largest, int3Loop_clusters]
      simp only [Bool.or_eq_true, Bool.and_eq_true, decide_eq_true_eq, Nat.zero_add,
        List.countP_pos]
      unfold maxRunCC ccRuns countCC
      constructor
      · rintro (h | ⟨⟨r, hr, hr4⟩, h100⟩)
        · left; omega
        · right
          exact ⟨⟨r, hr, by simpa using hr4⟩, h100⟩
      · rintro (h | ⟨⟨r, hr, hr4⟩, h100⟩)
        · left; omega
        · right
          exact ⟨⟨r, hr, by simpa using hr4⟩, h100⟩
    · unfold int3Report
      rw [if_neg (by omega)]
      show ((e.report_with_confidence DetectionSource.Int3
          (int3Tier (analyze_int3_pattern bytes).1 (analyze_int3_pattern bytes).2.2).1
          (int3Tier (analyze_int3_pattern bytes).1 (analyze_int3_pattern bytes).2.2).2.1
          (int3Tier (analyze_int3_pattern bytes).1
            (analyze_int3_pattern bytes).2.2).2.2).history.map
            fun ev => (ev.source, ev.weight, ev.confidence)) = _
      rw [ht, int3Tier_weight, int3Tier_conf]
      simp [DecisionEngine.report_with_confidence]
  refine ⟨hgen, analyze_region5000, ?_, ?_⟩
  all_goals {
    have h1 : (analyze_int3_pattern region5000).1 = countCC region5000 := by
      simp only [analyze_int3_pattern]
      rw [int3Loop_fst]
      omega
    have h2 : (analyze_int3_pattern region5000).1 = 5000 := by rw [analyze_region5000]
    have hc5 : countCC region5000 = 5000 := by rw [← h1, h2]
    have hrepn : int3Report region5000 DecisionEngine.new
        = DecisionEngine.new.report_with_confidence DetectionSource.Int3 1 (1/10)
            "Compiler alignment padding (dense clusters, high count)" := by
      unfold int3Report
      rw [if_neg (by omega)]
      rw [analyze_region5000]
      show DecisionEngine.new.report_with_confidence DetectionSource.Int3
        (int3Tier 5000 true).1 (int3Tier 5000 true).2.1 (int3Tier 5000 true).2.2 = _
      rw [show int3Tier 5000 true
        = (1, 1/10, "Compiler alignment padding (dense clusters, high count)") by
          unfold int3Tier INT3_ALIGNMENT_THRESHOLD
          rw [if_pos ⟨by omega, rfl⟩]]
    rw [hrepn]
    simp [DecisionEngine.report_with_confidence, DecisionEngine.new, hW10, hW10i, satAdd,
      U32_MAX]
  }

/-- Witness for C9 at the one-byte region [0xCC]. -/
theorem claim_C9_witness :
    0 < countCC [0xCC]
    ∧ ((analyze_int3_pattern [0xCC]).1 = countCC [0xCC]
       ∧ (analyze_int3_pattern [0xCC]).2.1 = maxRunCC [0xCC]
       ∧ ((analyze_int3_pattern [0xCC]).2.2 = true ↔
            16 ≤ maxRunCC [0xCC] ∨ ((∃ r ∈ ccRuns [0xCC], 4 ≤ r) ∧ 100 < countCC [0xCC]))
       ∧ ((int3Report [0xCC] DecisionEngine.new).history.map
            fun ev => (ev.source, ev.weight, ev.confidence))
          = ((DecisionEngine.new).history.map
              fun ev => (ev.source, ev.weight, ev.confidence))
            ++ [(DetectionSource.Int3,
                 effectiveWeight
                   (specTier (countCC [0xCC]) (analyze_int3_pattern [0xCC]).2.2).1
                   (specTier (countCC [0xCC]) (analyze_int3_pattern [0xCC]).2.2).2,
                 (specTier (countCC [0xCC]) (analyze_int3_pattern [0xCC]).2.2).2)]) :=
  ⟨by decide, claim_C9_int3_classification.1 [0xCC] DecisionEngine.new (by decide)⟩
